import Mathlib

/-!
Verification development for the gaze_app repository.

The embedding models the ImageScrambler module (frontend image scrambling),
the GazeTracker module (calibration, validation accuracy, fixation statistics)
and the ExperimentFlow state machine (trial loop, persistence with retry and
a durable local queue).

Conventions of the embedding:
- JavaScript numbers are modelled as rationals.  Math.sqrt and the
  trigonometric values of a random phase are not rational, so they are
  supplied as explicit oracle parameters.
- Math.random() draws are supplied by explicit oracle functions, indexed by
  the loop counters at which the source draws them.
- An RGBA pixel buffer (an ImageData object) is modelled at pixel
  granularity: every access of the source touches a whole RGBA quadruple
  (the inner channel loops run over a single pixel), so the flat
  Uint8ClampedArray is represented as a list of quadruples.
- A store into a Uint8ClampedArray clamps to the byte range and rounds half
  to even; byteStore models that conversion.
-/

/-- One RGBA pixel of an ImageData buffer (four consecutive bytes of data). -/
structure Pixel where
  r : ℕ
  g : ℕ
  b : ℕ
  a : ℕ
deriving DecidableEq, Repr

/-- An ImageData object: width, height and the pixel buffer. -/
structure JsImage where
  width : ℕ
  height : ℕ
  data : List Pixel
deriving DecidableEq, Repr

/-- The zero pixel: a freshly constructed ImageData is all zeroes. -/
def zeroPixel : Pixel := ⟨0, 0, 0, 0⟩

/-- Utils.clamp from the repository: Math.min(Math.max(value, min), max). -/
def clampQ (value lo hi : ℚ) : ℚ := min (max value lo) hi

/-- Utils.mean from the repository: 0 on the empty list, else sum divided by
length. -/
def meanQ (l : List ℚ) : ℚ := if l = [] then 0 else l.sum / l.length

/-- Math.floor of a nonnegative JavaScript number used as an array index or a
loop bound.  A negative argument is sent to 0, which matches the source uses:
a negative loop bound runs the loop zero times and a negative index misses
the array. -/
def jsFloorNat (q : ℚ) : ℕ := (Int.floor q).toNat

/-- Math.round: round half toward positive infinity. -/
def jsRound (q : ℚ) : ℤ := Int.floor (q + 1 / 2)

/-- Conversion performed when a JavaScript number is stored into a
Uint8ClampedArray entry: clamp into [0, 255] and round half to even. -/
def byteStore (v : ℚ) : ℕ :=
  if v ≤ 0 then 0
  else if 255 ≤ v then 255
  else
    let f : ℤ := Int.floor v
    let frac : ℚ := v - f
    (if frac < 1 / 2 then f
     else if 1 / 2 < frac then f + 1
     else if f % 2 = 0 then f else f + 1).toNat

/-- The JavaScript idiom that reads two array entries and writes them back
swapped (used on pixels by ImageScrambler.pixelScramble and on block
positions by ImageScrambler.blockScramble).  Out-of-range indices leave the
list unchanged; the source never produces them. -/
def listSwap {α : Type} (d : List α) (i j : ℕ) : List α :=
  match d.get? i, d.get? j with
  | some vi, some vj => (d.set i vj).set j vi
  | _, _ => d

/-- Map with the element index, mirroring loops that write result[i] as a
function of input[i] and i. -/
def mapWithIndex {α β : Type} (f : ℕ → α → β) : ℕ → List α → List β
  | _, [] => []
  | i, a :: rest => f i a :: mapWithIndex f (i + 1) rest

/-- Read of data[pixel * 4 + channel] for channel 0..3. -/
def getChannel (p : Pixel) (channel : ℕ) : ℕ :=
  match channel with
  | 0 => p.r
  | 1 => p.g
  | 2 => p.b
  | _ => p.a

/-- Write of data[pixel * 4 + channel] for channel 0..3. -/
def setChannel (p : Pixel) (channel : ℕ) (v : ℕ) : Pixel :=
  match channel with
  | 0 => { p with r := v }
  | 1 => { p with g := v }
  | 2 => { p with b := v }
  | _ => { p with a := v }

/-- ImageScrambler._extractChannel: the values of one channel, pixel by
pixel. -/
def extractChannel (img : JsImage) (channel : ℕ) : List ℚ :=
  img.data.map fun p => (getChannel p channel : ℚ)

/-- ImageScrambler._insertChannel: write channelData back into one channel,
through Utils.clamp(v, 0, 255) and the Uint8ClampedArray store. -/
def insertChannel (img : JsImage) (channelData : List ℚ) (channel : ℕ) : JsImage :=
  ⟨img.width, img.height,
    mapWithIndex (fun i p =>
      match channelData.get? i with
      | some v => setChannel p channel (byteStore (clampQ v 0 255))
      | none => p) 0 img.data⟩

/-- The trailing loop of phaseScramble and waveletScramble that copies the
alpha channel of the input image into the result. -/
def copyAlpha (res : JsImage) (img : JsImage) : JsImage :=
  ⟨res.width, res.height, res.data.zipWith (fun p q => { p with a := q.a }) img.data⟩

/-- A complex frequency coefficient as built by _simplifiedFFT2D. -/
structure JsComplex where
  real : ℚ
  imag : ℚ
deriving DecidableEq, Repr

/-- ImageScrambler._simplifiedFFT2D: the placeholder transform returns the
data in complex form with zero imaginary parts. -/
def simplifiedFFT2D (data : List ℚ) : List JsComplex :=
  data.map fun v => ⟨v, 0⟩

/-- ImageScrambler._simplifiedIFFT2D: the placeholder inverse extracts the
real part. -/
def simplifiedIFFT2D (fft : List JsComplex) : List ℚ :=
  fft.map JsComplex.real

/-- The random draws consumed for one frequency coefficient in phaseScramble:
the Math.random() value tested against the level, and the cosine and sine of
the random phase that is drawn when the test passes.  The source computes
Math.cos and Math.sin of a random angle; the oracle supplies that unit
vector directly because it is not rational. -/
structure PhaseDraw where
  test : ℚ
  cosv : ℚ
  sinv : ℚ
deriving DecidableEq, Repr

/-- The phase randomization loop of ImageScrambler.phaseScramble: with
probability level per coefficient, replace the coefficient by
(magnitude * cos, magnitude * sin) where magnitude is
Math.sqrt(real * real + imag * imag); sqrtQ supplies Math.sqrt. -/
def phaseRandomize (level : ℚ) (sqrtQ : ℚ → ℚ) (draws : ℕ → PhaseDraw)
    (fft : List JsComplex) : List JsComplex :=
  mapWithIndex (fun i c =>
    if (draws i).test < level then
      let magnitude := sqrtQ (c.real * c.real + c.imag * c.imag)
      ⟨magnitude * (draws i).cosv, magnitude * (draws i).sinv⟩
    else c) 0 fft

/-- ImageScrambler.phaseScramble: per color channel, apply the placeholder
FFT, randomize phases, invert, and write the real parts back; then copy the
alpha channel from the input. -/
def phaseScramble (sqrtQ : ℚ → ℚ) (draws : ℕ → ℕ → PhaseDraw)
    (img : JsImage) (level : ℚ) : JsImage :=
  let result0 : JsImage :=
    ⟨img.width, img.height, List.replicate (img.width * img.height) zeroPixel⟩
  let res := (List.range 3).foldl (fun resAcc channel =>
      let channelData := extractChannel img channel
      let fft := simplifiedFFT2D channelData
      let fft2 := phaseRandomize level sqrtQ (draws channel) fft
      let scrambled := simplifiedIFFT2D fft2
      insertChannel resAcc scrambled channel) result0
  copyAlpha res img

/-- ImageScrambler.pixelScramble: copy the input, then perform
floor(totalPixels * level) random pairwise full-channel pixel swaps; the
oracle gives the two Math.random() values drawn for swap number i. -/
def pixelScramble (draws : ℕ → ℚ × ℚ) (img : JsImage) (level : ℚ) : JsImage :=
  let totalPixels := img.width * img.height
  let shuffleCount := jsFloorNat ((totalPixels : ℚ) * level)
  let data := (List.range shuffleCount).foldl
    (fun d i =>
      listSwap d (jsFloorNat ((draws i).1 * (totalPixels : ℚ)))
                 (jsFloorNat ((draws i).2 * (totalPixels : ℚ)))) img.data
  ⟨img.width, img.height, data⟩

/-- The nested block-position loop of ImageScrambler.blockScramble: the
upper-left corners of the blocks in row-major order. -/
def blockPositions (blocksX blocksY blockSize : ℕ) : List (ℕ × ℕ) :=
  (List.range blocksY).flatMap fun byi =>
    (List.range blocksX).map fun bxi => (bxi * blockSize, byi * blockSize)

/-- ImageScrambler._copyBlock: copy a w times h pixel rectangle from the
source image into the destination image. -/
def copyBlock (src : JsImage) (dst : JsImage) (sx sy dx dy w h : ℕ) : JsImage :=
  ⟨dst.width, dst.height,
    (List.range h).foldl (fun d y =>
      (List.range w).foldl (fun d2 x =>
        let sIdx := (sy + y) * src.width + (sx + x)
        let dIdx := (dy + y) * dst.width + (dx + x)
        d2.set dIdx (src.data.getD sIdx zeroPixel)) d) dst.data⟩

/-- ImageScrambler.blockScramble.  The CONFIG.scrambling.blockSizes lookup is
not part of the sources, so it is an oracle parameter; the source falls back
to 16 when the lookup misses.  The oracle rand gives the Math.random() draw
of shuffle step i. -/
def blockScramble (cfgBlockSizes : ℚ → Option ℕ) (rand : ℕ → ℚ)
    (img : JsImage) (level : ℚ) : JsImage :=
  let result : JsImage := ⟨img.width, img.height, img.data⟩
  let blockSize := (cfgBlockSizes level).getD 16
  let blocksX := img.width / blockSize
  let blocksY := img.height / blockSize
  let blocks0 := blockPositions blocksX blocksY blockSize
  let shuffleCount := jsFloorNat ((blocks0.length : ℚ) * level)
  let blocks := (List.range shuffleCount).foldl
    (fun bs i => listSwap bs i (i + jsFloorNat (rand i * ((bs.length : ℚ) - (i : ℚ))))) blocks0
  let temp : JsImage := ⟨img.width, img.height, img.data⟩
  (List.range blocks.length).foldl
    (fun res i =>
      let sourceX := (i % blocksX) * blockSize
      let sourceY := (i / blocksX) * blockSize
      let dxy := blocks.getD i (0, 0)
      copyBlock temp res sourceX sourceY dxy.1 dxy.2 blockSize blockSize)
    result

/-- ImageScrambler._rotateSegment: copy a segment of the source image into
the destination, rotated by the given multiple of 90 degrees. -/
def rotateSegment (src : JsImage) (dst : JsImage) (x y w h angle : ℕ) : JsImage :=
  ⟨dst.width, dst.height,
    (List.range h).foldl (fun d dy =>
      (List.range w).foldl (fun d2 dx =>
        let sxy : ℕ × ℕ :=
          if angle = 90 then (h - dy - 1, dx)
          else if angle = 180 then (w - dx - 1, h - dy - 1)
          else if angle = 270 then (dy, w - dx - 1)
          else (dx, dy)
        let sIdx := (y + sxy.2) * src.width + (x + sxy.1)
        let dIdx := (y + dy) * dst.width + (x + dx)
        d2.set dIdx (src.data.getD sIdx zeroPixel)) d) dst.data⟩

/-- ImageScrambler.rotationScramble.  The oracle gives, per segment (sy, sx),
the Math.random() draw tested against the level and the draw that picks the
rotation. -/
def rotationScramble (rand : ℕ → ℕ → ℚ × ℚ) (img : JsImage) (level : ℚ) : JsImage :=
  let result : JsImage := ⟨img.width, img.height, img.data⟩
  let segmentSize := max 32 (jsFloorNat (128 * (1 - level)))
  let segmentsX := img.width / segmentSize
  let segmentsY := img.height / segmentSize
  (List.range segmentsY).foldl (fun res sy =>
    (List.range segmentsX).foldl (fun res2 sx =>
      if (rand sy sx).1 < level then
        let x := sx * segmentSize
        let y := sy * segmentSize
        let rotation := jsFloorNat ((rand sy sx).2 * 4) * 90
        rotateSegment img res2 x y segmentSize segmentSize rotation
      else res2) res) result

/-- Loop starts of a for loop running from 0 below total in steps of
blockSize (blockSize is positive at every call site). -/
def strideStarts (total blockSize : ℕ) : List ℕ :=
  (List.range ((total + blockSize - 1) / blockSize)).map (· * blockSize)

/-- The flat pixel indices of the block of mosaicScramble with upper-left
corner (x, y), clipped to the image. -/
def mosaicBlockIndices (w h x y blockSize : ℕ) : List ℕ :=
  (List.range (min (y + blockSize) h - y)).flatMap fun dy =>
    (List.range (min (x + blockSize) w - x)).map fun dx => (y + dy) * w + (x + dx)

/-- One block of ImageScrambler.mosaicScramble: average the RGB values of the
block in the input image and fill the block of the result with that average,
keeping the alpha of the input pixel at each position. -/
def mosaicFillBlock (img : JsImage) (d : List Pixel) (x y blockSize : ℕ) : List Pixel :=
  let idxs := mosaicBlockIndices img.width img.height x y blockSize
  let pixels := idxs.map fun i => img.data.getD i zeroPixel
  let count := pixels.length
  let rAvg := (pixels.map Pixel.r).sum / count
  let gAvg := (pixels.map Pixel.g).sum / count
  let bAvg := (pixels.map Pixel.b).sum / count
  idxs.foldl (fun d2 i => d2.set i ⟨rAvg, gAvg, bAvg, (img.data.getD i zeroPixel).a⟩) d

/-- ImageScrambler.mosaicScramble: block size max(1, floor(level * 20)); each
block of the result is filled with the mean RGB of the block of the input.
The division sum by count is Math.floor of a float division in the source,
which agrees with natural division for a nonempty block. -/
def mosaicScramble (img : JsImage) (level : ℚ) : JsImage :=
  let blockSize := max 1 (jsFloorNat (level * 20))
  ⟨img.width, img.height,
    (strideStarts img.height blockSize).foldl (fun d y =>
      (strideStarts img.width blockSize).foldl (fun d2 x =>
        mosaicFillBlock img d2 x y blockSize) d)
      (List.replicate (img.width * img.height) zeroPixel)⟩

/-- Grayscale of a pixel as computed inside _detectEdges:
(r + g + b) / 3. -/
def grayAt (img : JsImage) (idx : ℕ) : ℚ :=
  let p := img.data.getD idx zeroPixel
  ((p.r : ℚ) + (p.g : ℚ) + (p.b : ℚ)) / 3

/-- The Sobel kernels of _detectEdges, indexed by (ky + 1) and (kx + 1). -/
def sobelXKernel (i j : ℕ) : ℚ :=
  (([[-1, 0, 1], [-2, 0, 2], [-1, 0, 1]] : List (List ℚ)).getD i []).getD j 0

def sobelYKernel (i j : ℕ) : ℚ :=
  (([[-1, -2, -1], [0, 0, 0], [1, 2, 1]] : List (List ℚ)).getD i []).getD j 0

/-- ImageScrambler._detectEdges: gradient magnitude over the grayscale image,
normalized by 255, on the interior; the border stays 0.  sqrtQ supplies
Math.sqrt. -/
def detectEdges (sqrtQ : ℚ → ℚ) (img : JsImage) : List ℚ :=
  let w := img.width
  let h := img.height
  ((List.range (h - 2)).map (· + 1)).foldl (fun es y =>
    ((List.range (w - 2)).map (· + 1)).foldl (fun es2 x =>
      let gx := ((List.range 3).map fun ky =>
        ((List.range 3).map fun kx =>
          grayAt img ((y + ky - 1) * w + (x + kx - 1)) * sobelXKernel ky kx).sum).sum
      let gy := ((List.range 3).map fun ky =>
        ((List.range 3).map fun kx =>
          grayAt img ((y + ky - 1) * w + (x + kx - 1)) * sobelYKernel ky kx).sum).sum
      es2.set (y * w + x) (sqrtQ (gx * gx + gy * gy) / 255)) es)
    (List.replicate (w * h) (0 : ℚ))

/-- The swap of the RGB channels only (channel loop bound 3) used by
ImageScrambler.edgeScramble; the alpha channels stay in place. -/
def swapRgbAt (d : List Pixel) (i j : ℕ) : List Pixel :=
  match d.get? i, d.get? j with
  | some vi, some vj =>
      (d.set i ⟨vj.r, vj.g, vj.b, vi.a⟩).set j ⟨vi.r, vi.g, vi.b, vj.a⟩
  | _, _ => d

/-- ImageScrambler.edgeScramble: collect the non-edge pixel indices
(gradient below 0.3), then perform floor(count * level) RGB swaps between
the i-th non-edge pixel and a random non-edge pixel. -/
def edgeScramble (sqrtQ : ℚ → ℚ) (rand : ℕ → ℚ) (img : JsImage) (level : ℚ) : JsImage :=
  let edges := detectEdges sqrtQ img
  let nonEdgePixels := (List.range edges.length).filter fun i =>
    decide (edges.getD i 0 < 3 / 10)
  let shuffleCount := jsFloorNat ((nonEdgePixels.length : ℚ) * level)
  ⟨img.width, img.height,
    (List.range shuffleCount).foldl (fun d i =>
      let idx1 := nonEdgePixels.getD i 0
      let idx2 := nonEdgePixels.getD (jsFloorNat (rand i * (nonEdgePixels.length : ℚ))) 0
      swapRgbAt d idx1 idx2) img.data⟩

/-- The hue2rgb helper of ImageScrambler._hslToRgb. -/
def hue2rgb (p q t0 : ℚ) : ℚ :=
  let t1 := if t0 < 0 then t0 + 1 else t0
  let t := if t1 > 1 then t1 - 1 else t1
  if t < 1 / 6 then p + (q - p) * 6 * t
  else if t < 1 / 2 then q
  else if t < 2 / 3 then p + (q - p) * (2 / 3 - t) * 6
  else p

/-- ImageScrambler._hslToRgb: returns the rounded RGB triple. -/
def hslToRgb (h s l : ℚ) : ℤ × ℤ × ℤ :=
  if s = 0 then
    (jsRound (l * 255), jsRound (l * 255), jsRound (l * 255))
  else
    let q := if l < 1 / 2 then l * (1 + s) else l + s - l * s
    let p := 2 * l - q
    (jsRound (hue2rgb p q (h + 1 / 3) * 255),
     jsRound (hue2rgb p q h * 255),
     jsRound (hue2rgb p q (h - 1 / 3) * 255))

/-- ImageScrambler.colorScramble: per pixel, with probability level replace
the color by a random hue at saturation 0.5 and the luminance of the pixel;
the oracle gives the test draw and the hue draw of pixel i. -/
def colorScramble (draws : ℕ → ℚ × ℚ) (img : JsImage) (level : ℚ) : JsImage :=
  ⟨img.width, img.height,
    mapWithIndex (fun i p =>
      if (draws i).1 < level then
        let luminance := (299 / 1000 : ℚ) * p.r + (587 / 1000 : ℚ) * p.g + (114 / 1000 : ℚ) * p.b
        let randomHue := (draws i).2 * 360
        let rgb := hslToRgb (randomHue / 360) (1 / 2) (luminance / 255)
        ⟨byteStore (rgb.1 : ℚ), byteStore (rgb.2.1 : ℚ), byteStore (rgb.2.2 : ℚ), p.a⟩
      else p) 0 img.data⟩

/-- ImageScrambler._haarWavelet2D: one level of averaging and differencing
over 2 by 2 blocks, written into a copy of the input.  Reads outside the
buffer (odd dimensions) are modelled as 0; the source targets even
dimensions. -/
def haarWavelet2D (data : List ℚ) (width height : ℕ) : List ℚ :=
  (strideStarts height 2).foldl (fun res y =>
    (strideStarts width 2).foldl (fun res2 x =>
      let idx1 := y * width + x
      let idx2 := y * width + x + 1
      let idx3 := (y + 1) * width + x
      let idx4 := (y + 1) * width + x + 1
      let avg := (data.getD idx1 0 + data.getD idx2 0 + data.getD idx3 0 + data.getD idx4 0) / 4
      let diff := (data.getD idx1 0 - data.getD idx2 0 + data.getD idx3 0 - data.getD idx4 0) / 4
      (res2.set idx1 avg).set idx2 diff) res) data

/-- ImageScrambler._inverseHaarWavelet2D: reconstruction from the average and
difference coefficients, reading from the input array. -/
def inverseHaarWavelet2D (wavelet : List ℚ) (width height : ℕ) : List ℚ :=
  (strideStarts height 2).foldl (fun res y =>
    (strideStarts width 2).foldl (fun res2 x =>
      let idx1 := y * width + x
      let idx2 := y * width + x + 1
      let avg := wavelet.getD idx1 0
      let diff := wavelet.getD idx2 0
      (res2.set idx1 (avg + diff)).set idx2 (avg - diff)) res) wavelet

/-- ImageScrambler.waveletScramble: per channel, Haar transform, replacement
of high-frequency coefficients beyond the low-frequency quarter by random
coefficients with probability level, inverse transform, write back; then
copy the alpha channel.  quarterSize is a float division in the source and
is modelled by natural division (they agree when 4 divides the pixel
count). -/
def waveletScramble (wRand : ℕ → ℕ → ℚ × ℚ) (img : JsImage) (level : ℚ) : JsImage :=
  let result0 : JsImage :=
    ⟨img.width, img.height, List.replicate (img.width * img.height) zeroPixel⟩
  let res := (List.range 3).foldl (fun resAcc channel =>
      let channelData := extractChannel img channel
      let wavelet := haarWavelet2D channelData img.width img.height
      let quarterSize := (img.width * img.height) / 4
      let wavelet2 := (List.range (wavelet.length - quarterSize)).foldl (fun wv k =>
          let i := quarterSize + k
          if (wRand channel k).1 < level then
            wv.set i (wv.getD (jsFloorNat ((wRand channel k).2 * (wv.length : ℚ))) 0)
          else wv) wavelet
      let reconstructed := inverseHaarWavelet2D wavelet2 img.width img.height
      insertChannel resAcc reconstructed channel) result0
  copyAlpha res img

/-- All oracle inputs of the scramble dispatch: the Math.sqrt function, the
CONFIG.scrambling.blockSizes lookup (CONFIG is not part of the sources) and
the Math.random() draws each method consumes. -/
structure ScrambleRng where
  sqrtQ : ℚ → ℚ
  phaseDraws : ℕ → ℕ → PhaseDraw
  blockSizes : ℚ → Option ℕ
  blockRand : ℕ → ℚ
  pixelRand : ℕ → ℚ × ℚ
  rotRand : ℕ → ℕ → ℚ × ℚ
  edgeRand : ℕ → ℚ
  colorRand : ℕ → ℚ × ℚ
  waveletRand : ℕ → ℕ → ℚ × ℚ

/-- ImageScrambler.scramble: returns the input unchanged at level 0,
otherwise dispatches on the method string; an unknown method logs and
returns the input unchanged.  The function is total: no branch throws. -/
def scramble (rng : ScrambleRng) (img : JsImage) (method : String) (level : ℚ) : JsImage :=
  if level = 0 then img
  else if method = "phase" then phaseScramble rng.sqrtQ rng.phaseDraws img level
  else if method = "block" then blockScramble rng.blockSizes rng.blockRand img level
  else if method = "pixel" then pixelScramble rng.pixelRand img level
  else if method = "rotation" then rotationScramble rng.rotRand img level
  else if method = "mosaic" then mosaicScramble img level
  else if method = "edge" then edgeScramble rng.sqrtQ rng.edgeRand img level
  else if method = "color" then colorScramble rng.colorRand img level
  else if method = "wavelet" then waveletScramble rng.waveletRand img level
  else img

/-- The eight recognized scramble method strings. -/
def scrambleMethods : List String :=
  ["phase", "block", "pixel", "rotation", "mosaic", "edge", "color", "wavelet"]

/-- A rectangular region as returned by getBoundingClientRect. -/
structure JsRect where
  left : ℚ
  right : ℚ
  top : ℚ
  bottom : ℚ
deriving DecidableEq, Repr

/-- A gaze sample point (the fixation reduction only reads x and y). -/
structure GazePoint where
  x : ℚ
  y : ℚ
deriving DecidableEq, Repr

/-- Utils.pointInRect: containment in a closed rectangle. -/
def pointInRect (x y : ℚ) (rect : JsRect) : Bool :=
  decide (x ≥ rect.left) && decide (x ≤ rect.right) &&
  decide (y ≥ rect.top) && decide (y ≤ rect.bottom)

/-- GazeTracker.isGazeInRegion. -/
def isGazeInRegion (gazePoint : GazePoint) (region : JsRect) : Bool :=
  pointInRect gazePoint.x gazePoint.y region

/-- The side values used by calculateFixationStats (the source uses the
strings left, right and center). -/
inductive GazeSide where
  | left
  | right
  | center
deriving DecidableEq, Repr

/-- The bucket a sample falls into, as decided by the region tests of the
loop body of calculateFixationStats (left region first, then right region,
else center). -/
def classifyPoint (leftRegion rightRegion : JsRect) (p : GazePoint) : GazeSide :=
  if isGazeInRegion p leftRegion then GazeSide.left
  else if isGazeInRegion p rightRegion then GazeSide.right
  else GazeSide.center

/-- The classified sequence of a list of gaze samples. -/
def classifySides (leftRegion rightRegion : JsRect) (pts : List GazePoint) : List GazeSide :=
  pts.map (classifyPoint leftRegion rightRegion)

/-- The mutable accumulator of the loop of
GazeTracker.calculateFixationStats. -/
structure FixAccum where
  leftFixationTime : ℚ
  rightFixationTime : ℚ
  centerTime : ℚ
  switches : ℕ
  firstFixation : Option GazeSide
  previousSide : Option GazeSide
deriving DecidableEq, Repr

/-- One iteration of the loop of calculateFixationStats: add one time slice
to the bucket of the sample, record the first non-center side, count a
switch when the previous sample and this one are both non-center and differ,
and remember this side (center included) as the previous side. -/
def fixStep (leftRegion rightRegion : JsRect) (timePerSample : ℚ)
    (s : FixAccum) (point : GazePoint) : FixAccum :=
  let bucket : FixAccum × GazeSide :=
    if isGazeInRegion point leftRegion then
      ({ s with leftFixationTime := s.leftFixationTime + timePerSample }, GazeSide.left)
    else if isGazeInRegion point rightRegion then
      ({ s with rightFixationTime := s.rightFixationTime + timePerSample }, GazeSide.right)
    else
      ({ s with centerTime := s.centerTime + timePerSample }, GazeSide.center)
  let s1 := bucket.1
  let currentSide := bucket.2
  let ff :=
    if s.firstFixation = none ∧ currentSide ≠ GazeSide.center then some currentSide
    else s.firstFixation
  let sw :=
    match s.previousSide with
    | some prev =>
        if currentSide ≠ prev ∧ currentSide ≠ GazeSide.center ∧ prev ≠ GazeSide.center then
          s.switches + 1
        else s.switches
    | none => s.switches
  { s1 with firstFixation := ff, switches := sw, previousSide := some currentSide }

/-- JavaScript float division as used for the percentages: the division of
zero by zero is NaN, modelled as none; a denominator of zero never occurs
with a nonzero numerator here. -/
def jsDivOpt (a b : ℚ) : Option ℚ :=
  if b = 0 then none else some (a / b)

/-- The record returned by GazeTracker.calculateFixationStats.  The
percentages are Option values because they are NaN when the total time is
zero; the source has no center percentage field. -/
structure FixStats where
  leftFixationTime : ℚ
  rightFixationTime : ℚ
  centerTime : ℚ
  switches : ℕ
  firstFixation : Option GazeSide
  totalSamples : ℕ
  leftPercentage : Option ℚ
  rightPercentage : Option ℚ
deriving DecidableEq, Repr

/-- GazeTracker.calculateFixationStats.  The sample rate
(CONFIG.gazeTracking.sampleRate, not part of the sources) is a parameter;
timePerSample is 1000 / sampleRate as in the source. -/
def calculateFixationStats (sampleRate : ℚ) (gazeData : List GazePoint)
    (leftRegion rightRegion : JsRect) : FixStats :=
  let timePerSample := 1000 / sampleRate
  let acc := gazeData.foldl (fixStep leftRegion rightRegion timePerSample)
    ⟨0, 0, 0, 0, none, none⟩
  let total := acc.leftFixationTime + acc.rightFixationTime + acc.centerTime
  { leftFixationTime := acc.leftFixationTime
    rightFixationTime := acc.rightFixationTime
    centerTime := acc.centerTime
    switches := acc.switches
    firstFixation := acc.firstFixation
    totalSamples := gazeData.length
    leftPercentage := (jsDivOpt acc.leftFixationTime total).map fun v => v * 100
    rightPercentage := (jsDivOpt acc.rightFixationTime total).map fun v => v * 100 }

/-- Adjacent-pair switch count: one switch for every two immediately
adjacent samples of the classified sequence that are both non-center and
differ in side.  This is the declarative description of the switch counter
the loop of calculateFixationStats implements. -/
def countAdjacentSwitches : List GazeSide → ℕ
  | a :: b :: rest =>
      (if b ≠ a ∧ b ≠ GazeSide.center ∧ a ≠ GazeSide.center then 1 else 0) +
        countAdjacentSwitches (b :: rest)
  | _ => 0

/-- Adjacent differing pairs of a side sequence. -/
def countDiffAdjacent : List GazeSide → ℕ
  | a :: b :: rest => (if b ≠ a then 1 else 0) + countDiffAdjacent (b :: rest)
  | _ => 0

/-- Modelled from the claim wording (not from the source): the switch rule
in which intervening center samples neither count nor reset the comparison
baseline, i.e. drop the center samples and count adjacent differing
pairs. -/
def countSwitchesIgnoringCenter (sides : List GazeSide) : ℕ :=
  countDiffAdjacent (sides.filter fun s => decide (s ≠ GazeSide.center))

/-- Switch count of a classified sequence started with a given previous
side, mirroring the accumulator of the loop. -/
def switchesFrom : Option GazeSide → List GazeSide → ℕ
  | _, [] => 0
  | prev, s :: rest =>
      (match prev with
       | some p =>
           if s ≠ p ∧ s ≠ GazeSide.center ∧ p ≠ GazeSide.center then 1 else 0
       | none => 0) + switchesFrom (some s) rest

/-- The result record of GazeTracker.stopCalibration; isCalibrated models
the assignment this.isCalibrated = true of the success branch. -/
structure CalibrationResult where
  threshold : ℚ
  leftMeanX : ℚ
  rightMeanX : ℚ
  leftPoints : ℕ
  rightPoints : ℕ
  isCalibrated : Bool
deriving DecidableEq, Repr

/-- GazeTracker.stopCalibration: when both halves collected at least one
point, the threshold is the midpoint of the mean x of each half and the
tracker is marked calibrated; otherwise the insufficient-data error is
thrown. -/
def stopCalibration (leftGazePoints rightGazePoints : List GazePoint) :
    Except String CalibrationResult :=
  if leftGazePoints.length > 0 ∧ rightGazePoints.length > 0 then
    let leftMeanX := meanQ (leftGazePoints.map GazePoint.x)
    let rightMeanX := meanQ (rightGazePoints.map GazePoint.x)
    Except.ok
      { threshold := (leftMeanX + rightMeanX) / 2
        leftMeanX := leftMeanX
        rightMeanX := rightMeanX
        leftPoints := leftGazePoints.length
        rightPoints := rightGazePoints.length
        isCalibrated := true }
  else Except.error "Insufficient calibration data collected"

/-- The accuracy computation of ExperimentFlow._handleValidation (the
variant the claims cite): accuracy stays 0 when no target produced samples,
otherwise it is min(1, max(0, 1 - avgDistance / (screenDiagonal * 0.3))). -/
def computeValidationAccuracy (distances : List ℚ) (screenDiagonal : ℚ) : ℚ :=
  if distances.length > 0 then
    let avgDistance := meanQ distances
    min 1 (max 0 (1 - avgDistance / (screenDiagonal * (3 / 10))))
  else 0

/-- The accuracy computation of GazeTracker.validateCalibration:
max(0, 1 - avgDistance / (screenDiagonal * 0.3)), with no upper clamp in the
source. -/
def validateCalibrationAccuracy (distances : List ℚ) (screenDiagonal : ℚ) : ℚ :=
  max 0 (1 - meanQ distances / (screenDiagonal * (3 / 10)))

/-- A record of the durable local queue (localStorage key failedTrials):
session id, trial payload and enqueue timestamp.  The payload type is
abstract. -/
structure PendingTrial (Payload : Type) where
  sessionId : ℕ
  trialData : Payload
  timestamp : ℕ
deriving DecidableEq, Repr

/-- The retry limit of ExperimentFlow._saveTrialData. -/
def maxRetries : ℕ := 3

/-- The attempt loop of ExperimentFlow._saveTrialData: deliver attempt
(1-based) reports whether APIClient.saveTrial succeeds on that attempt; on
success the queue is left unchanged and the function returns; when the last
attempt fails the pending record is appended to the queue.  The fuel is the
number of attempts remaining. -/
def saveTrialGo {Payload : Type} (deliver : ℕ → Bool) (pending : PendingTrial Payload)
    (queue : List (PendingTrial Payload)) : ℕ → ℕ → List (PendingTrial Payload)
  | _, 0 => queue
  | attempt, fuel + 1 =>
      if deliver attempt then queue
      else if fuel = 0 then queue ++ [pending]
      else saveTrialGo deliver pending queue (attempt + 1) fuel

/-- ExperimentFlow._saveTrialData, projected onto the durable queue: the
function always returns (every failure path is caught), and the queue gains
the pending record exactly when all maxRetries attempts fail. -/
def saveTrialData {Payload : Type} (deliver : ℕ → Bool) (pending : PendingTrial Payload)
    (storedTrials : List (PendingTrial Payload)) : List (PendingTrial Payload) :=
  saveTrialGo deliver pending storedTrials 1 maxRetries

/-- The loop of ExperimentFlow._retryFailedTrials that collects the indices
of the records whose single delivery attempt succeeded, in order. -/
def retrySuccessList (deliver : ℕ → Bool) (n : ℕ) : List ℕ :=
  (List.range n).foldl (fun acc i => if deliver i then acc ++ [i] else acc) []

/-- ExperimentFlow._retryFailedTrials: attempt each stored record once;
when at least one succeeded, write back the records whose index is not among
the successes, else leave the storage untouched. -/
def retryFailedTrials {Payload : Type} (deliver : ℕ → Bool)
    (storedTrials : List (PendingTrial Payload)) : List (PendingTrial Payload) :=
  let successfulRetries := retrySuccessList deliver storedTrials.length
  if successfulRetries.length > 0 then
    (storedTrials.enum.filter fun pr => !successfulRetries.contains pr.1).map Prod.snd
  else storedTrials

/-- An image descriptor of a generated trial. -/
structure TrialImage where
  path : String
  category : String
  attentionType : String
deriving DecidableEq, Repr

/-- A generated trial configuration (ExperimentFlow._generateTrials). -/
structure TrialSpec where
  trialNumber : ℕ
  leftImage : TrialImage
  rightImage : TrialImage
  scrambleMethod : String
  scrambleLevel : ℚ
deriving DecidableEq, Repr

/-- The random choices _generateTrials draws for trial index i: the high and
low attention categories, one image from each, the scramble method and
level, and the coin flip that puts the high-attention image on the left. -/
structure TrialDrawOracle where
  highCat : ℕ → String
  lowCat : ℕ → String
  highImg : ℕ → String
  lowImg : ℕ → String
  methodOf : ℕ → String
  levelOf : ℕ → ℚ
  highOnLeft : ℕ → Bool

/-- ExperimentFlow._generateTrials: one trial configuration per loop index,
trial numbers 1-based. -/
def generateTrials (o : TrialDrawOracle) (numTrials : ℕ) : List TrialSpec :=
  (List.range numTrials).map fun i =>
    { trialNumber := i + 1
      leftImage :=
        if o.highOnLeft i then ⟨o.highImg i, o.highCat i, "high"⟩
        else ⟨o.lowImg i, o.lowCat i, "low"⟩
      rightImage :=
        if o.highOnLeft i then ⟨o.lowImg i, o.lowCat i, "low"⟩
        else ⟨o.highImg i, o.highCat i, "high"⟩
      scrambleMethod := o.methodOf i
      scrambleLevel := o.levelOf i }

/-- The phases of the trial loop of the ExperimentFlow state machine that
matter for the break / completion behavior. -/
inductive FlowPhase where
  | trial
  | takingBreak
  | completion
deriving DecidableEq, Repr

/-- The observable state of the trial loop: the current trial index, the
phase, the indices after which a break screen was entered, and the number of
trials executed. -/
structure FlowSim where
  currentTrialIndex : ℕ
  phase : FlowPhase
  breaksAt : List ℕ
  trialsRun : ℕ
deriving DecidableEq, Repr

/-- The break condition of _handleTrial:
currentTrialIndex % CONFIG.experiment.breakEvery === 0 after the increment.
In JavaScript a modulus by zero is NaN and never equal to 0, hence the
explicit guard. -/
def jsMultipleOf (idx breakEvery : ℕ) : Bool :=
  decide (breakEvery ≠ 0) && decide (idx % breakEvery = 0)

/-- One transition of the trial loop of ExperimentFlow: in the trial phase,
a missing trial (index at or beyond the generated list) transitions to
completion; otherwise the trial runs, the index advances, and the loop
either enters the break phase (index a multiple of breakEvery with trials
remaining) or re-enters the trial phase.  In the break phase the
continue button returns to the trial phase.  Completion is terminal. -/
def flowStep (numTrials breakEvery : ℕ) (s : FlowSim) : FlowSim :=
  match s.phase with
  | FlowPhase.completion => s
  | FlowPhase.takingBreak => { s with phase := FlowPhase.trial }
  | FlowPhase.trial =>
      if s.currentTrialIndex ≥ numTrials then { s with phase := FlowPhase.completion }
      else
        let idx := s.currentTrialIndex + 1
        if jsMultipleOf idx breakEvery && decide (idx < numTrials) then
          { currentTrialIndex := idx
            phase := FlowPhase.takingBreak
            breaksAt := s.breaksAt ++ [idx]
            trialsRun := s.trialsRun + 1 }
        else
          { currentTrialIndex := idx
            phase := FlowPhase.trial
            breaksAt := s.breaksAt
            trialsRun := s.trialsRun + 1 }

/-- Iterate the trial loop a given number of transitions. -/
def runFlow (numTrials breakEvery : ℕ) : ℕ → FlowSim → FlowSim
  | 0, s => s
  | fuel + 1, s => runFlow numTrials breakEvery fuel (flowStep numTrials breakEvery s)

/-- The state on entering the trial phase for the first time. -/
def flowInit : FlowSim := ⟨0, FlowPhase.trial, [], 0⟩

/-- Demo left stimulus region for concrete evaluations. -/
def rectLDemo : JsRect := ⟨0, 10, 0, 10⟩

/-- Demo right stimulus region for concrete evaluations. -/
def rectRDemo : JsRect := ⟨20, 30, 0, 10⟩

/-- Demo Math.sqrt oracle: correct at the only radicand the phase bug
demonstration hits (100 squared). -/
def sqrtDemo : ℚ → ℚ := fun q => if q = 10000 then 100 else 0

/-- Demo phase draw: the coefficient is always scrambled (test 0) and the
random phase is pi over 2, whose cosine is 0 and sine is 1. -/
def phaseDrawsDemo : ℕ → ℕ → PhaseDraw := fun _ _ => ⟨0, 0, 1⟩

/-- Demo one-pixel image with gray value 100 and opaque alpha. -/
def phaseDemoImg : JsImage := ⟨1, 1, [⟨100, 100, 100, 255⟩]⟩

/-- The per-channel amplitude (magnitude) spectrum of an image under the
frequency decomposition of the source (its _simplifiedFFT2D), with the
magnitude computed exactly as phaseScramble computes it; sqrtQ supplies
Math.sqrt. -/
def amplitudeSpectrum (sqrtQ : ℚ → ℚ) (img : JsImage) (channel : ℕ) : List ℚ :=
  (simplifiedFFT2D (extractChannel img channel)).map fun z =>
    sqrtQ (z.real * z.real + z.imag * z.imag)

/-- Demo scramble oracle with inert draws, for concrete evaluations of the
dispatch. -/
def scrambleRngDemo : ScrambleRng :=
  { sqrtQ := fun _ => 0
    phaseDraws := fun _ _ => ⟨1, 1, 0⟩
    blockSizes := fun _ => none
    blockRand := fun _ => 0
    pixelRand := fun _ => (0, 0)
    rotRand := fun _ _ => (1, 0)
    edgeRand := fun _ => 0
    colorRand := fun _ => (1, 0)
    waveletRand := fun _ _ => (1, 0) }

/-- Total fixation time accumulated so far: the sum of the three buckets. -/
def fixTimeSum (s : FixAccum) : ℚ :=
  s.leftFixationTime + s.rightFixationTime + s.centerTime

/-- Demo gaze sequence classified as left, left, right, center, right, left
against the demo regions. -/
def fixDemoSeq : List GazePoint :=
  [⟨5, 5⟩, ⟨5, 5⟩, ⟨25, 5⟩, ⟨15, 5⟩, ⟨25, 5⟩, ⟨5, 5⟩]

/-- Demo gaze sequence classified as left, center, right against the demo
regions: a center sample between two differing sides. -/
def centerGapSeq : List GazePoint := [⟨5, 5⟩, ⟨15, 5⟩, ⟨25, 5⟩]

/-- Replacing the entry at a position by a new value and putting the old
entry in front is a permutation of putting the new value in front. -/
theorem cons_set_perm {α : Type} (t : List α) :
    ∀ (k : ℕ) (hk : k < t.length) (a : α),
      List.Perm (t.get ⟨k, hk⟩ :: t.set k a) (a :: t) := by
  induction t with
  | nil => intro k hk a; exact absurd hk (Nat.not_lt_zero k)
  | cons b u ih =>
    intro k hk a
    cases k with
    | zero =>
      simp only [List.get, List.set]
      exact List.Perm.swap a b u
    | succ k =>
      have hk2 : k < u.length := Nat.lt_of_succ_lt_succ hk
      simp only [List.get, List.set]
      exact ((List.Perm.swap b _ _).trans ((ih k hk2 a).cons b)).trans (List.Perm.swap a b u)

/-- A transposition realized by two set operations permutes the list. -/
theorem set_set_get_perm {α : Type} (l : List α) :
    ∀ (i j : ℕ) (hi : i < l.length) (hj : j < l.length),
      List.Perm ((l.set i (l.get ⟨j, hj⟩)).set j (l.get ⟨i, hi⟩)) l := by
  induction l with
  | nil => intro i j hi _; exact absurd hi (Nat.not_lt_zero i)
  | cons b u ih =>
    intro i j hi hj
    match i, j with
    | 0, 0 => simp
    | 0, k + 1 =>
      have hk : k < u.length := Nat.lt_of_succ_lt_succ hj
      simp only [List.get, List.set]
      exact cons_set_perm u k hk b
    | m + 1, 0 =>
      have hm : m < u.length := Nat.lt_of_succ_lt_succ hi
      simp only [List.get, List.set]
      exact cons_set_perm u m hm b
    | m + 1, k + 1 =>
      have hm : m < u.length := Nat.lt_of_succ_lt_succ hi
      have hk : k < u.length := Nat.lt_of_succ_lt_succ hj
      simp only [List.get, List.set]
      exact (ih m k hm hk).cons b

/-- The swap idiom of the source permutes the list for any indices. -/
theorem listSwap_perm {α : Type} (d : List α) (i j : ℕ) :
    List.Perm (listSwap d i j) d := by
  unfold listSwap
  split
  case _ vi vj hi hj =>
    rcases List.get?_eq_some.mp hi with ⟨hi2, hvi⟩
    rcases List.get?_eq_some.mp hj with ⟨hj2, hvj⟩
    rw [← hvi, ← hvj]
    exact set_set_get_perm d i j hi2 hj2
  case _ => exact List.Perm.refl d

/-- Any number of swap steps driven by arbitrary index functions permutes
the list. -/
theorem foldl_listSwap_perm {α : Type} (f g : ℕ → ℕ) :
    ∀ (n : ℕ) (d : List α),
      List.Perm ((List.range n).foldl (fun d2 i => listSwap d2 (f i) (g i)) d) d := by
  intro n
  induction n with
  | zero => intro d; simp
  | succ n ih =>
    intro d
    rw [List.range_succ, List.foldl_append]
    exact List.Perm.trans (listSwap_perm _ _ _) (ih d)

/-- C1: for every RGBA image buffer, every oracle and every method string
(in particular each of the eight recognized methods), scramble at level 0
returns the input unchanged, alpha channel included: the source returns the
input before dispatching. -/
theorem c1_scramble_level_zero_identity (rng : ScrambleRng) (img : JsImage)
    (method : String) : scramble rng img method 0 = img := by
  simp [scramble]

/-- C2: the phase scramble of the source does not preserve the amplitude
spectrum.  On a one-pixel gray image of value 100, at level 1, with the
random phase pi over 2 (cosine 0, sine 1) and Math.sqrt correct on the one
radicand that occurs, the output pixel value is 0: the amplitude spectrum of
the channel drops from [100] to [0] because the inverse transform discards
the imaginary part that carries the magnitude.  This contradicts the
documentation comment of phaseScramble (preserves amplitude spectrum). -/
theorem c2_phase_scramble_amplitude_bug :
    amplitudeSpectrum sqrtDemo phaseDemoImg 0 = [100] ∧
    amplitudeSpectrum sqrtDemo (phaseScramble sqrtDemo phaseDrawsDemo phaseDemoImg 1) 0 = [0] ∧
    phaseScramble sqrtDemo phaseDrawsDemo phaseDemoImg 1 = ⟨1, 1, [⟨0, 0, 0, 255⟩]⟩ := by
  refine ⟨?_, ?_, ?_⟩ <;>
    norm_num [amplitudeSpectrum, phaseScramble, extractChannel, insertChannel, copyAlpha,
      simplifiedFFT2D, simplifiedIFFT2D, phaseRandomize, phaseDemoImg, sqrtDemo,
      phaseDrawsDemo, zeroPixel, getChannel, setChannel, byteStore, clampQ, mapWithIndex,
      List.range_succ, List.foldl]

/-- C9: for every image, every level and every method string outside the
eight recognized ones, scramble returns the input buffer unchanged; the
dispatch is total, so no error is raised. -/
theorem c9_unknown_method_returns_input (rng : ScrambleRng) (img : JsImage)
    (method : String) (level : ℚ) (h : method ∉ scrambleMethods) :
    scramble rng img method level = img := by
  simp only [scrambleMethods, List.mem_cons, List.not_mem_nil, or_false] at h
  push_neg at h
  obtain ⟨h1, h2, h3, h4, h5, h6, h7, h8⟩ := h
  simp [scramble, h1, h2, h3, h4, h5, h6, h7, h8]

/-- Witness for C9 at the concrete method string unknown. -/
theorem c9_unknown_method_witness :
    scramble scrambleRngDemo phaseDemoImg "unknown" (1 / 2) = phaseDemoImg :=
  c9_unknown_method_returns_input scrambleRngDemo phaseDemoImg "unknown" (1 / 2) (by decide)

/-- C10: for every image, every level and every random draw sequence, the
output of pixel scrambling has exactly the same multiset of RGBA pixels as
the input: the method only performs full-channel pairwise pixel swaps. -/
theorem c10_pixel_scramble_preserves_pixel_multiset (draws : ℕ → ℚ × ℚ)
    (img : JsImage) (level : ℚ) :
    ((pixelScramble draws img level).data : Multiset Pixel) =
      (img.data : Multiset Pixel) := by
  apply Multiset.coe_eq_coe.mpr
  simp only [pixelScramble]
  exact foldl_listSwap_perm _ _ _ img.data

/-- The previous side recorded by one loop iteration is the classification
of the processed sample, center included. -/
theorem fixStep_previousSide (L R : JsRect) (tps : ℚ) (s : FixAccum) (p : GazePoint) :
    (fixStep L R tps s p).previousSide = some (classifyPoint L R p) := by
  unfold fixStep classifyPoint
  by_cases h1 : isGazeInRegion p L = true <;> by_cases h2 : isGazeInRegion p R = true <;>
    simp [h1, h2]

/-- One loop iteration adds the switch indicator of the pair of the previous
side and the classification of the sample. -/
theorem fixStep_switches (L R : JsRect) (tps : ℚ) (s : FixAccum) (p : GazePoint) :
    (fixStep L R tps s p).switches =
      s.switches +
        (match s.previousSide with
         | some prev =>
             if classifyPoint L R p ≠ prev ∧ classifyPoint L R p ≠ GazeSide.center ∧
                 prev ≠ GazeSide.center then 1 else 0
         | none => 0) := by
  unfold fixStep classifyPoint
  by_cases h1 : isGazeInRegion p L = true <;> by_cases h2 : isGazeInRegion p R = true <;>
    cases s.previousSide <;> simp [h1, h2] <;> split <;> simp

/-- One loop iteration adds one time slice to the sum of the three
buckets. -/
theorem fixStep_time_sum (L R : JsRect) (tps : ℚ) (s : FixAccum) (p : GazePoint) :
    fixTimeSum (fixStep L R tps s p) = fixTimeSum s + tps := by
  unfold fixStep fixTimeSum
  by_cases h1 : isGazeInRegion p L = true <;> by_cases h2 : isGazeInRegion p R = true <;>
    simp [h1, h2] <;> ring

/-- The loop accumulates the switch count described by switchesFrom. -/
theorem fixFold_switches (L R : JsRect) (tps : ℚ) :
    ∀ (pts : List GazePoint) (s : FixAccum),
      (pts.foldl (fixStep L R tps) s).switches =
        s.switches + switchesFrom s.previousSide (classifySides L R pts) := by
  intro pts
  induction pts with
  | nil => intro s; simp [classifySides, switchesFrom]
  | cons p rest ih =>
    intro s
    rw [List.foldl_cons, ih (fixStep L R tps s p), fixStep_switches, fixStep_previousSide]
    simp only [classifySides, List.map_cons, switchesFrom]
    omega

/-- The loop accumulates one time slice per sample. -/
theorem fixFold_time_sum (L R : JsRect) (tps : ℚ) :
    ∀ (pts : List GazePoint) (s : FixAccum),
      fixTimeSum (pts.foldl (fixStep L R tps) s) = fixTimeSum s + tps * pts.length := by
  intro pts
  induction pts with
  | nil => intro s; simp
  | cons p rest ih =>
    intro s
    rw [List.foldl_cons, ih (fixStep L R tps s p), fixStep_time_sum]
    rw [List.length_cons]
    push_cast
    ring

/-- switchesFrom started at a concrete side is the adjacent-pair count with
that side in front. -/
theorem switchesFrom_some_eq (l : List GazeSide) :
    ∀ p, switchesFrom (some p) l = countAdjacentSwitches (p :: l) := by
  induction l with
  | nil => intro p; simp [switchesFrom, countAdjacentSwitches]
  | cons s rest ih =>
    intro p
    rw [switchesFrom, ih s]
    simp [countAdjacentSwitches]

/-- switchesFrom started with no previous side is the adjacent-pair count. -/
theorem switchesFrom_none_eq (l : List GazeSide) :
    switchesFrom none l = countAdjacentSwitches l := by
  cases l with
  | nil => simp [switchesFrom, countAdjacentSwitches]
  | cons s rest =>
    rw [switchesFrom, switchesFrom_some_eq rest s]
    simp

/-- C3: counterexample to the claim at the concrete input of an empty gaze
sequence.  With totalSamples equal to 0 the returned percentages are the NaN
of a zero-by-zero division (modelled as none), not 0, and the function
returns no center percentage field at all. -/
theorem c3_zero_samples_percentages_nan :
    (calculateFixationStats 30 [] rectLDemo rectRDemo).totalSamples = 0 ∧
    (calculateFixationStats 30 [] rectLDemo rectRDemo).leftPercentage = none ∧
    (calculateFixationStats 30 [] rectLDemo rectRDemo).rightPercentage = none ∧
    (calculateFixationStats 30 [] rectLDemo rectRDemo).leftPercentage ≠ some 0 ∧
    (calculateFixationStats 30 [] rectLDemo rectRDemo).rightPercentage ≠ some 0 := by
  refine ⟨rfl, ?_, ?_, ?_, ?_⟩ <;> simp [calculateFixationStats, jsDivOpt]

/-- C3 amended: calculateFixationStats returns left and right percentages
only; whenever the gaze sequence is nonempty (so totalSamples is positive)
and the sample rate is positive, the two returned percentages plus the
center share (100 times centerTime over the total time, which the source
does not return) sum to exactly 100; with totalSamples equal to 0 both
returned percentages are the NaN of a zero-by-zero division, not 0. -/
theorem c3_percentages_amended (sampleRate : ℚ) (gazeData : List GazePoint)
    (leftRegion rightRegion : JsRect) (hr : 0 < sampleRate) :
    (gazeData ≠ [] →
      ∃ lp rp,
        (calculateFixationStats sampleRate gazeData leftRegion rightRegion).leftPercentage =
          some lp ∧
        (calculateFixationStats sampleRate gazeData leftRegion rightRegion).rightPercentage =
          some rp ∧
        lp + rp +
            100 *
                (calculateFixationStats sampleRate gazeData leftRegion
                    rightRegion).centerTime /
              ((calculateFixationStats sampleRate gazeData leftRegion
                    rightRegion).leftFixationTime +
                (calculateFixationStats sampleRate gazeData leftRegion
                    rightRegion).rightFixationTime +
                (calculateFixationStats sampleRate gazeData leftRegion
                    rightRegion).centerTime) =
          100) ∧
    ((calculateFixationStats sampleRate [] leftRegion rightRegion).leftPercentage = none ∧
      (calculateFixationStats sampleRate [] leftRegion rightRegion).rightPercentage = none) := by
  constructor
  · intro hne
    simp only [calculateFixationStats]
    set acc := gazeData.foldl (fixStep leftRegion rightRegion (1000 / sampleRate))
      ⟨0, 0, 0, 0, none, none⟩ with hacc
    have htot : fixTimeSum acc = (1000 / sampleRate) * gazeData.length := by
      rw [hacc, fixFold_time_sum]
      simp [fixTimeSum]
    have hlen : 0 < (gazeData.length : ℚ) := by
      exact_mod_cast List.length_pos.mpr hne
    have htotpos : 0 < fixTimeSum acc := by
      rw [htot]; positivity
    have htotne : acc.leftFixationTime + acc.rightFixationTime + acc.centerTime ≠ 0 := by
      unfold fixTimeSum at htotpos; linarith
    refine ⟨acc.leftFixationTime /
        (acc.leftFixationTime + acc.rightFixationTime + acc.centerTime) * 100,
      acc.rightFixationTime /
        (acc.leftFixationTime + acc.rightFixationTime + acc.centerTime) * 100, ?_, ?_, ?_⟩
    · simp [jsDivOpt, htotne]
    · simp [jsDivOpt, htotne]
    · field_simp
      ring
  · constructor <;> simp [calculateFixationStats, jsDivOpt]

/-- Witness for the amended C3 at a concrete nonempty input. -/
theorem c3_percentages_amended_witness :
    ∃ lp rp,
      (calculateFixationStats 30 centerGapSeq rectLDemo rectRDemo).leftPercentage = some lp ∧
      (calculateFixationStats 30 centerGapSeq rectLDemo rectRDemo).rightPercentage = some rp ∧
      lp + rp +
          100 * (calculateFixationStats 30 centerGapSeq rectLDemo rectRDemo).centerTime /
            ((calculateFixationStats 30 centerGapSeq rectLDemo rectRDemo).leftFixationTime +
              (calculateFixationStats 30 centerGapSeq rectLDemo rectRDemo).rightFixationTime +
              (calculateFixationStats 30 centerGapSeq rectLDemo rectRDemo).centerTime) =
        100 :=
  (c3_percentages_amended 30 centerGapSeq rectLDemo rectRDemo (by norm_num)).1
    (by simp [centerGapSeq])

/-- C4: counterexample to the claim at a concrete input.  On the sequence
classified as left, center, right, the code counts 0 switches because the
center sample overwrites the comparison baseline, while the rule of the
claim (center samples do not reset the baseline) counts 1. -/
theorem c4_center_resets_baseline_counterexample :
    classifySides rectLDemo rectRDemo centerGapSeq =
      [GazeSide.left, GazeSide.center, GazeSide.right] ∧
    (calculateFixationStats 30 centerGapSeq rectLDemo rectRDemo).switches = 0 ∧
    countSwitchesIgnoringCenter (classifySides rectLDemo rectRDemo centerGapSeq) = 1 := by
  refine ⟨?_, ?_, ?_⟩
  · norm_num [classifySides, classifyPoint, isGazeInRegion, pointInRect, rectLDemo,
      rectRDemo, centerGapSeq]
  · norm_num [calculateFixationStats, fixStep, isGazeInRegion, pointInRect, rectLDemo,
      rectRDemo, centerGapSeq, List.foldl]
  · norm_num [classifySides, classifyPoint, isGazeInRegion, pointInRect, rectLDemo,
      rectRDemo, centerGapSeq, countSwitchesIgnoringCenter, countDiffAdjacent]
    decide

/-- C4 amended: the switches counter increments exactly when two immediately
adjacent samples of the classified sequence (center samples included) are
both non-center and differ in side; a center sample resets the comparison
baseline, so sides separated by center samples are never compared.  The
classified sequence left, left, right, center, right, left still yields
exactly 2 switches. -/
theorem c4_switches_adjacent_with_reset :
    (∀ (sampleRate : ℚ) (gazeData : List GazePoint) (leftRegion rightRegion : JsRect),
      (calculateFixationStats sampleRate gazeData leftRegion rightRegion).switches =
        countAdjacentSwitches (classifySides leftRegion rightRegion gazeData)) ∧
    classifySides rectLDemo rectRDemo fixDemoSeq =
      [GazeSide.left, GazeSide.left, GazeSide.right, GazeSide.center, GazeSide.right,
        GazeSide.left] ∧
    (calculateFixationStats 30 fixDemoSeq rectLDemo rectRDemo).switches = 2 := by
  have hgen : ∀ (sampleRate : ℚ) (gazeData : List GazePoint) (L R : JsRect),
      (calculateFixationStats sampleRate gazeData L R).switches =
        countAdjacentSwitches (classifySides L R gazeData) := by
    intro sampleRate gazeData L R
    simp only [calculateFixationStats]
    rw [fixFold_switches]
    simp [switchesFrom_none_eq]
  refine ⟨hgen, ?_, ?_⟩
  · norm_num [classifySides, classifyPoint, isGazeInRegion, pointInRect, rectLDemo,
      rectRDemo, fixDemoSeq]
  · rw [hgen]
    norm_num [classifySides, classifyPoint, isGazeInRegion, pointInRect, rectLDemo,
      rectRDemo, fixDemoSeq, countAdjacentSwitches]
    decide

/-- A foldl that conditionally appends collects exactly the filtered
elements behind the accumulator. -/
theorem foldl_filter_append {α : Type} (f : α → Bool) :
    ∀ (l : List α) (acc : List α),
      l.foldl (fun a i => if f i then a ++ [i] else a) acc = acc ++ l.filter f := by
  intro l
  induction l with
  | nil => intro acc; simp
  | cons x rest ih =>
    intro acc
    rw [List.foldl_cons]
    by_cases hx : f x = true
    · rw [if_pos hx, ih, List.filter_cons_of_pos hx]
      simp
    · rw [if_neg hx, ih, List.filter_cons_of_neg (by simpa using hx)]

/-- The success-index loop of the retry pass collects the indices whose
delivery succeeded, in order. -/
theorem retrySuccessList_eq (f : ℕ → Bool) (n : ℕ) :
    retrySuccessList f n = (List.range n).filter f := by
  unfold retrySuccessList
  rw [foldl_filter_append]
  simp

/-- Membership test in the collected success indices agrees with the
delivery outcome for every in-range index. -/
theorem contains_filter_range (f : ℕ → Bool) (n i : ℕ) (hi : i < n) :
    ((List.range n).filter f).contains i = f i := by
  have hmem : i ∈ (List.range n).filter f ↔ f i = true := by
    rw [List.mem_filter, List.mem_range]
    exact ⟨fun h => h.2, fun h => ⟨hi, h⟩⟩
  rcases hf : f i with _ | _ <;> rw [hf] at hmem <;>
    simp [List.contains, List.elem_eq_mem, hmem]

/-- The replay pass keeps exactly the records whose single delivery attempt
failed, in queue order, whether or not any attempt succeeded. -/
theorem retryFailedTrials_eq {Payload : Type} (deliver : ℕ → Bool)
    (storedTrials : List (PendingTrial Payload)) :
    retryFailedTrials deliver storedTrials =
      (storedTrials.enum.filter fun pr => deliver pr.1 = false).map Prod.snd := by
  unfold retryFailedTrials
  rw [retrySuccessList_eq]
  have hidx : ∀ pr ∈ storedTrials.enum, pr.1 < storedTrials.length := by
    intro pr hpr
    have := List.mem_enum_iff_getElem?.mp hpr
    exact (List.getElem?_eq_some.mp this).1
  by_cases hpos : ((List.range storedTrials.length).filter deliver).length > 0
  · rw [if_pos hpos]
    congr 1
    apply List.filter_congr
    intro pr hpr
    rw [contains_filter_range deliver _ _ (hidx pr hpr)]
    rcases deliver pr.1 <;> simp
  · rw [if_neg hpos]
    have hempty : (List.range storedTrials.length).filter deliver = [] := by
      cases h : (List.range storedTrials.length).filter deliver with
      | nil => rfl
      | cons a l => rw [h] at hpos; simp at hpos
    have hall : ∀ i < storedTrials.length, deliver i = false := by
      intro i hi
      have := List.filter_eq_nil_iff.mp hempty i (List.mem_range.mpr hi)
      simpa using this
    have hkeep : (storedTrials.enum.filter fun pr => deliver pr.1 = false) =
        storedTrials.enum := by
      apply List.filter_eq_self.mpr
      intro pr hpr
      simp [hall pr.1 (hidx pr hpr)]
    rw [hkeep, List.enum_map_snd]

/-- When every one of the maxRetries delivery attempts fails, the save
operation appends the pending record to the durable queue exactly once and
returns normally. -/
theorem saveTrialData_all_fail {Payload : Type} (deliver : ℕ → Bool)
    (pending : PendingTrial Payload) (queue : List (PendingTrial Payload))
    (h : ∀ k, 1 ≤ k → k ≤ maxRetries → deliver k = false) :
    saveTrialData deliver pending queue = queue ++ [pending] := by
  have h1 := h 1 (by norm_num) (by norm_num [maxRetries])
  have h2 := h 2 (by norm_num) (by norm_num [maxRetries])
  have h3 := h 3 (by norm_num) (by norm_num [maxRetries])
  simp [saveTrialData, maxRetries, saveTrialGo, h1, h2, h3]

/-- C5: when every one of the maxRetries delivery attempts fails, the save
operation appends the record to the durable local queue exactly once and
returns (the model is total: every failure path of the source is caught, so
the trial loop is never blocked); the startup replay attempts each queued
record once, keeping exactly the records whose delivery attempt failed, in
queue order, and removing the ones whose delivery succeeded. -/
theorem c5_durable_queue_and_replay {Payload : Type} (deliver retryDeliver : ℕ → Bool)
    (pending : PendingTrial Payload) (queue storedTrials : List (PendingTrial Payload)) :
    ((∀ k, 1 ≤ k → k ≤ maxRetries → deliver k = false) →
      saveTrialData deliver pending queue = queue ++ [pending]) ∧
    retryFailedTrials retryDeliver storedTrials =
      (storedTrials.enum.filter fun pr => retryDeliver pr.1 = false).map Prod.snd :=
  ⟨saveTrialData_all_fail deliver pending queue, retryFailedTrials_eq retryDeliver storedTrials⟩

/-- Witness for C5: with delivery always failing the record is enqueued
once; on replay where only the first record delivers, the first record is
removed and the second retained. -/
theorem c5_durable_queue_witness :
    saveTrialData (fun _ => false) (⟨1, 7, 0⟩ : PendingTrial ℕ) [] = [⟨1, 7, 0⟩] ∧
    retryFailedTrials (fun i => decide (i = 0)) [(⟨1, 7, 0⟩ : PendingTrial ℕ), ⟨1, 8, 0⟩] =
      [⟨1, 8, 0⟩] := by
  have h := @c5_durable_queue_and_replay ℕ (fun _ => false)
    (fun i => decide (i = 0)) ⟨1, 7, 0⟩ [] [⟨1, 7, 0⟩, ⟨1, 8, 0⟩]
  exact ⟨h.1 (fun _ _ _ => rfl), by rw [h.2]; decide⟩

/-- C6: stopCalibration sets the threshold to the midpoint of the mean x of
the left-half samples and the mean x of the right-half samples and marks the
tracker calibrated exactly when both halves collected at least one sample;
when either half is empty it throws the insufficient-calibration-data
error. -/
theorem c6_stop_calibration_threshold (leftGazePoints rightGazePoints : List GazePoint) :
    (leftGazePoints ≠ [] ∧ rightGazePoints ≠ [] →
      stopCalibration leftGazePoints rightGazePoints =
        Except.ok
          { threshold :=
              (meanQ (leftGazePoints.map GazePoint.x) +
                  meanQ (rightGazePoints.map GazePoint.x)) / 2
            leftMeanX := meanQ (leftGazePoints.map GazePoint.x)
            rightMeanX := meanQ (rightGazePoints.map GazePoint.x)
            leftPoints := leftGazePoints.length
            rightPoints := rightGazePoints.length
            isCalibrated := true }) ∧
    ((leftGazePoints = [] ∨ rightGazePoints = []) →
      stopCalibration leftGazePoints rightGazePoints =
        Except.error "Insufficient calibration data collected") := by
  constructor
  · rintro ⟨h1, h2⟩
    have hc1 : leftGazePoints.length > 0 := List.length_pos.mpr h1
    have hc2 : rightGazePoints.length > 0 := List.length_pos.mpr h2
    simp [stopCalibration, hc1, hc2]
  · rintro (h | h) <;> subst h <;> simp [stopCalibration]

/-- Witness for C6: one sample at x 100 on the left and one at x 300 on the
right give the threshold 200 and a calibrated tracker. -/
theorem c6_stop_calibration_witness :
    stopCalibration [⟨100, 50⟩] [⟨300, 60⟩] = Except.ok ⟨200, 100, 300, 1, 1, true⟩ := by
  have h := (c6_stop_calibration_threshold [⟨100, 50⟩] [⟨300, 60⟩]).1 ⟨by simp, by simp⟩
  rw [h]
  norm_num [meanQ]

/-- C7: for positive screen diagonal and nonnegative per-target distances,
the validation accuracy equals clamp(1 - meanDistance / (0.3 * diagonal), 0, 1)
in both cited variants (the clamped one of the flow and the lower-bounded
one of the tracker, whose value never exceeds 1 because the mean distance is
nonnegative); it is 1 when every distance is 0, it is 0 when the mean
distance equals 0.3 times the diagonal, and it always lies in [0, 1]. -/
theorem c7_validation_accuracy_clamped (distances : List ℚ) (screenDiagonal : ℚ)
    (hD : 0 < screenDiagonal) (hnn : ∀ d ∈ distances, 0 ≤ d) (hne : distances ≠ []) :
    computeValidationAccuracy distances screenDiagonal =
      clampQ (1 - meanQ distances / (screenDiagonal * (3 / 10))) 0 1 ∧
    validateCalibrationAccuracy distances screenDiagonal =
      clampQ (1 - meanQ distances / (screenDiagonal * (3 / 10))) 0 1 ∧
    ((∀ d ∈ distances, d = 0) → computeValidationAccuracy distances screenDiagonal = 1) ∧
    (meanQ distances = screenDiagonal * (3 / 10) →
      computeValidationAccuracy distances screenDiagonal = 0) ∧
    0 ≤ computeValidationAccuracy distances screenDiagonal ∧
    computeValidationAccuracy distances screenDiagonal ≤ 1 := by
  have hlen : 0 < (distances.length : ℚ) := by
    exact_mod_cast List.length_pos.mpr hne
  have hmean : 0 ≤ meanQ distances := by
    unfold meanQ
    rw [if_neg hne]
    exact div_nonneg (List.sum_nonneg hnn) hlen.le
  have hden : 0 < screenDiagonal * (3 / 10) := by positivity
  have hv1 : 1 - meanQ distances / (screenDiagonal * (3 / 10)) ≤ 1 := by
    have h0 : 0 ≤ meanQ distances / (screenDiagonal * (3 / 10)) := div_nonneg hmean hden.le
    linarith
  have hlennat : distances.length > 0 := List.length_pos.mpr hne
  have hcompute : computeValidationAccuracy distances screenDiagonal =
      min 1 (max 0 (1 - meanQ distances / (screenDiagonal * (3 / 10)))) := by
    simp [computeValidationAccuracy, hlennat]
  have hclampeq : clampQ (1 - meanQ distances / (screenDiagonal * (3 / 10))) 0 1 =
      min 1 (max 0 (1 - meanQ distances / (screenDiagonal * (3 / 10)))) := by
    unfold clampQ
    rw [max_comm, min_comm]
  refine ⟨by rw [hcompute, hclampeq], ?_, ?_, ?_, ?_, ?_⟩
  · unfold validateCalibrationAccuracy
    rw [hclampeq, min_eq_right (max_le (by norm_num) hv1)]
  · intro hz
    have hm0 : meanQ distances = 0 := by
      unfold meanQ
      rw [if_neg hne, List.sum_eq_zero hz, zero_div]
    rw [hcompute, hm0, zero_div]
    norm_num
  · intro hm
    rw [hcompute, hm, div_self hden.ne.symm]
    norm_num
  · rw [hcompute]
    exact le_min (by norm_num) (le_max_left 0 _)
  · rw [hcompute]
    exact min_le_left 1 _

/-- Witness for C7: a single zero distance gives accuracy 1, and a single
distance equal to 0.3 times the diagonal gives accuracy 0. -/
theorem c7_validation_accuracy_witness :
    computeValidationAccuracy [0] 1 = clampQ (1 - meanQ [0] / (1 * (3 / 10))) 0 1 ∧
    computeValidationAccuracy [0] 1 = 1 ∧
    computeValidationAccuracy [3 / 10] 1 = 0 := by
  have h1 := c7_validation_accuracy_clamped [0] 1 (by norm_num)
    (by intro d hd; simp at hd; simp [hd]) (by simp)
  have h2 := c7_validation_accuracy_clamped [3 / 10] 1 (by norm_num)
    (by intro d hd; simp at hd; norm_num [hd]) (by simp)
  exact ⟨h1.1, h1.2.2.1 (by intro d hd; simp at hd; simp [hd]),
    h2.2.2.2.1 (by norm_num [meanQ])⟩

set_option maxRecDepth 4000 in
/-- C8: for any sequence of random draws, a run of 50 generated trials with
a break interval of 20 generates exactly 50 trials numbered 1 to 50, enters
the break phase exactly twice (after trials 20 and 40), and then reaches
completion with all 50 trials executed. -/
theorem c8_fifty_trials_two_breaks (o : TrialDrawOracle) :
    (generateTrials o 50).length = 50 ∧
    (generateTrials o 50).map TrialSpec.trialNumber = (List.range 50).map (· + 1) ∧
    runFlow 50 20 100 flowInit =
      { currentTrialIndex := 50
        phase := FlowPhase.completion
        breaksAt := [20, 40]
        trialsRun := 50 } := by
  refine ⟨?_, ?_, ?_⟩
  · simp [generateTrials]
  · simp [generateTrials]
  · decide
